import Mathlib

/-!
# prisma-playground — verification of the catalog/ordering core

Shallow embedding of the repository's relational core: the `Product` CRUD
handlers implemented in `src/src/server.ts`, and the order/review engine
(Repository, Order Transaction Coordinator, Cascade Executor) that the spec
describes but the source does not yet implement.  Monetary `Decimal(10, 2)`
values are represented as integer numbers of cents; timestamps as `Nat`.

All state-changing operations have type `... → DB → Except RepoError α × DB`:
the returned `DB` is the store after the operation, and every failing path
returns the input store unchanged, which makes all-or-nothing behaviour a
provable statement rather than a convention.
-/

namespace PrismaPlayground

/-- A `Product` row.  `priceCents` embeds the `Decimal(10,2)` column `price`
as an exact count of cents, so "2 fractional digits" is preserved by
construction whenever `priceCents` is preserved. -/
structure Product where
  id : Nat
  name : String
  priceCents : Int
  description : Option String
  sku : Option String
  stockQuantity : Int
  createdAt : Nat
  deriving Repr, DecidableEq

/-- A `Review` row. -/
structure Review where
  id : Nat
  rating : Int
  comment : Option String
  productId : Nat
  createdAt : Nat
  deriving Repr, DecidableEq

/-- An `Order` row; `totalPriceCents` embeds `totalPrice Decimal(10,2)`. -/
structure Order where
  id : Nat
  totalPriceCents : Int
  createdAt : Nat
  deriving Repr, DecidableEq

/-- An `OrderProduct` join row with composite key `(productId, orderId)`. -/
structure OrderProduct where
  productId : Nat
  orderId : Nat
  quantity : Int
  unitPriceCents : Int
  deriving Repr, DecidableEq

/-- The four row-sets of the store plus the id sequences. -/
structure DB where
  products : List Product
  reviews : List Review
  orders : List Order
  orderProducts : List OrderProduct
  nextProductId : Nat
  nextOrderId : Nat
  deriving Repr, DecidableEq

/-- The closed set of typed failures of the engine (spec §7). -/
inductive RepoError where
  | NotFoundError
  | ValidationError (field : String) (rule : String)
  | ConflictError (field : String)
  | InsufficientStockError (productId : Nat)
  deriving Repr, DecidableEq

/-- Embeds `prisma.product.findUnique({ where: { id } })`. -/
def findProduct (db : DB) (pid : Nat) : Option Product :=
  db.products.find? (fun p => p.id = pid)

/-- Look an `Order` row up by id. -/
def findOrder (db : DB) (oid : Nat) : Option Order :=
  db.orders.find? (fun o => o.id = oid)

/-! ## The `server.ts` HTTP handlers (translated from the source)

`src/src/server.ts` implements only the five `/products` routes, directly on
top of the Prisma client.  JSON bodies may omit fields, which JavaScript sees
as `undefined`; we embed each possibly-absent body field as an `Option`. -/

/-- Body of `POST /products` / `PUT /products/:id`.  `description` and `sku`
are nullable columns, so a supplied value is itself an `Option String`
(`some none` = the body carried an explicit `null`). -/
structure ProductBody where
  name : Option String
  priceCents : Option Int
  description : Option (Option String)
  sku : Option (Option String)
  stockQuantity : Option Int
  deriving Repr, DecidableEq

/-- JavaScript truthiness of a possibly-absent string: `undefined` and `""`
are falsy (`!name` in the handler). -/
def jsTruthyStr : Option String → Bool
  | none => false
  | some s => ¬ (s = "")

/-- JavaScript truthiness of a possibly-absent number: `undefined` and `0`
are falsy (`!price` in the handler). -/
def jsTruthyNum : Option Int → Bool
  | none => false
  | some n => ¬ (n = 0)

/-- Embeds `stockQuantity || 0` from the handler: JavaScript `||` yields the right
operand when the left is falsy (absent or `0`). -/
def jsOrZero : Option Int → Int
  | none => 0
  | some n => if n = 0 then 0 else n

/-- Whether some existing product already carries this non-null sku; a
`prisma.product.create` violating the `@unique` constraint on `sku` throws
(`P2002`), which the handler's generic `catch` turns into status 500. -/
def skuTaken (db : DB) (s : String) : Bool :=
  db.products.any (fun p => p.sku = some s)

/-- Handler of `POST /products` from `src/src/server.ts` (lines 19–42): rejects with 400
when `!name || !price`, otherwise `prisma.product.create` with
`stockQuantity: stockQuantity || 0`; a thrown error (duplicate sku) is caught
and mapped to 500.  Result: (status, created row if any), new store.
`now` stands for the row's `createdAt` timestamp. -/
def postProductHandler (body : ProductBody) (now : Nat) (db : DB) :
    (Nat × Option Product) × DB :=
  match body.name, body.priceCents with
  | some nm, some pr =>
    if nm = "" ∨ pr = 0 then ((400, none), db)
    else
      let mkRow : Product :=
        { id := db.nextProductId
          name := nm
          priceCents := pr
          description := body.description.getD none
          sku := body.sku.getD none
          stockQuantity := jsOrZero body.stockQuantity
          createdAt := now }
      match body.sku.getD none with
      | some s =>
        if skuTaken db s then ((500, none), db)
        else ((201, some mkRow),
          { db with products := db.products ++ [mkRow],
                    nextProductId := db.nextProductId + 1 })
      | none => ((201, some mkRow),
          { db with products := db.products ++ [mkRow],
                    nextProductId := db.nextProductId + 1 })
  | _, _ => ((400, none), db)

/-- Update semantics of `PUT /products/:id` from `src/src/server.ts` (lines 78–98): the handler
destructures the five known fields from the body and passes them all to
`prisma.product.update`; Prisma skips any `data` field whose value is
`undefined`, so an absent body field leaves the stored column unchanged,
while a present one (including an explicit `null` for a nullable column)
overwrites it.  A missing row makes `update` throw (`P2025`), caught → 500. -/
def applyBody (body : ProductBody) (pid : Nat) (p : Product) : Product :=
  if p.id = pid then
    { p with
        name := body.name.getD p.name
        priceCents := body.priceCents.getD p.priceCents
        description := body.description.getD p.description
        sku := body.sku.getD p.sku
        stockQuantity := body.stockQuantity.getD p.stockQuantity }
  else p

/-- The route-level result of `PUT /products/:id`: 500 when the row is
absent, otherwise 200 with the re-read updated row. -/
def putProductHandler (pid : Nat) (body : ProductBody) (db : DB) :
    (Nat × Option Product) × DB :=
  match findProduct db pid with
  | none => ((500, none), db)
  | some _ =>
    let db' := { db with products := db.products.map (applyBody body pid) }
    ((200, findProduct db' pid), db')

/-! ## The engine (Repository, Coordinator, Cascade Executor)

The spec's core beyond the Product routes is not implemented in `src/`
(`server.ts` is the HTTP glue the spec excludes); the definitions below are
modelled from the spec's words, §4.2–§4.4. -/

/-- Fields proposed for a Product `create` (engine-level, all validated). -/
structure ProductFields where
  name : String
  priceCents : Int
  description : Option String
  sku : Option String
  stockQuantity : Option Int
  deriving Repr, DecidableEq

/-- Modelled from the spec: the Schema/Invariant Layer's validation predicate
for Product (§3, §4.1) — non-empty name, price ≥ 0, stockQuantity ≥ 0 when
supplied; returns the violated `(field, rule)` or `none` for valid. -/
def validateProduct (f : ProductFields) : Option (String × String) :=
  if f.name = "" then some ("name", "NameEmpty")
  else if f.priceCents < 0 then some ("price", "PriceNegative")
  else if (f.stockQuantity.getD 0) < 0 then some ("stockQuantity", "StockNegative")
  else none

/-- Modelled from the spec: Repository `create` for Product (§4.2) — runs
validation, enforces sku uniqueness (`ConflictError{field}`, Invariant I4),
and on success persists one new row with a fresh id and the defaulted
`stockQuantity = 0`.  Every failing path leaves the store unchanged. -/
def repoCreateProduct (f : ProductFields) (now : Nat) (db : DB) :
    Except RepoError Product × DB :=
  match validateProduct f with
  | some (field, rule) => (.error (.ValidationError field rule), db)
  | none =>
    let conflict := match f.sku with
      | some s => skuTaken db s
      | none => false
    if conflict then (.error (.ConflictError "sku"), db)
    else
      let row : Product :=
        { id := db.nextProductId
          name := f.name
          priceCents := f.priceCents
          description := f.description
          sku := f.sku
          stockQuantity := f.stockQuantity.getD 0
          createdAt := now }
      (.ok row,
        { db with products := db.products ++ [row],
                  nextProductId := db.nextProductId + 1 })

/-- Modelled from the spec: Repository `delete` for Product with the Cascade
Executor (§4.2, §4.4) — dependents (every `Review` and `OrderProduct` row
referencing the product) and the parent row are removed in one atomic unit;
fails `NotFoundError` when the row is absent, leaving the store unchanged. -/
def deleteProduct (pid : Nat) (db : DB) : Except RepoError Unit × DB :=
  match findProduct db pid with
  | none => (.error .NotFoundError, db)
  | some _ =>
    (.ok (),
      { db with
          products := db.products.filter (fun p => ¬ (p.id = pid))
          reviews := db.reviews.filter (fun r => ¬ (r.productId = pid))
          orderProducts := db.orderProducts.filter (fun op => ¬ (op.productId = pid)) })

/-! ## Order Transaction Coordinator (modelled from the spec, §4.3 and §5)

`createOrder` is split, as §5 demands, into a read-only planning phase
(steps 1–5: validate the line items, load the products, snapshot unit
prices, check stock, compute the rounded total) and an atomic commit
(step 6) that re-verifies each product's stock against the store at commit
time — a conditional decrement — so that a plan made from a stale read
cannot overdraw stock. -/

/-- One requested line item of `createOrder`. -/
structure LineItem where
  productId : Nat
  quantity : Int
  deriving Repr, DecidableEq

/-- Round a rational currency amount to 2 fractional digits using
round-half-up, returned as a count of cents (spec step 5 / design note:
`round(x, 2)` half-up). -/
def roundHalfUpToCents (x : ℚ) : ℤ :=
  ⌊x * 100 + 1 / 2⌋

/-- Load the Product row of each line item, pairing it with the item;
`none` when some productId is unknown (step 2). -/
def loadLineProducts (db : DB) : List LineItem → Option (List (Product × LineItem))
  | [] => some []
  | it :: rest =>
    match findProduct db it.productId with
    | none => none
    | some p => (loadLineProducts db rest).map (fun ps => (p, it) :: ps)

/-- An order plan: the products as read at planning time (unit-price
snapshot, Invariant I1) with their line items, and the rounded total. -/
structure OrderPlan where
  lines : List (Product × LineItem)
  totalCents : Int
  deriving Repr, DecidableEq

/-- Step 5's aggregate: `sum(unitPrice × quantity)` over the snapshotted
lines (each `unitPriceCents/100` currency units), rounded to 2 fractional
digits half-up, as cents. -/
def orderTotalCents (lines : List (Product × LineItem)) : ℤ :=
  roundHalfUpToCents
    (((lines.map (fun pl => pl.1.priceCents * pl.2.quantity)).sum : ℤ) / (100 : ℚ))

/-- Modelled from the spec: `createOrder` steps 1–5 (§4.3) — reject an empty
item list, a non-positive quantity or a repeated productId; load each
Product (`NotFoundError`); check stock (`InsufficientStockError{productId}`);
snapshot unit prices and compute
`totalPrice = roundHalfUp(sum(unitPrice × quantity), 2)`.  Read-only. -/
def planOrder (items : List LineItem) (db : DB) : Except RepoError OrderPlan :=
  if items.isEmpty then .error (.ValidationError "lineItems" "Empty")
  else if items.any (fun it => it.quantity ≤ 0) then
    .error (.ValidationError "quantity" "NonPositive")
  else if ¬ (items.map (fun it => it.productId)).Nodup then
    .error (.ValidationError "productId" "Repeated")
  else
    match loadLineProducts db items with
    | none => .error .NotFoundError
    | some lines =>
      match lines.find? (fun pl => pl.1.stockQuantity < pl.2.quantity) with
      | some pl => .error (.InsufficientStockError pl.2.productId)
      | none => .ok { lines := lines, totalCents := orderTotalCents lines }

/-- Decrement the stock of the products named by the line items (step 6). -/
def decStock (items : List LineItem) (p : Product) : Product :=
  match items.find? (fun it => it.productId = p.id) with
  | some it => { p with stockQuantity := p.stockQuantity - it.quantity }
  | none => p

/-- Modelled from the spec: `createOrder` step 6 (§4.3, §5) — the atomic
commit.  Each product's stock is re-read from the current store and the
decrement is conditional on `stockQuantity ≥ quantity` still holding at
commit time; any failure aborts the whole order with the store unchanged.
On success the Order row, one OrderProduct row per line item (with the
plan's snapshotted unit price) and every stock decrement become visible
together. -/
def commitOrder (plan : OrderPlan) (now : Nat) (db : DB) :
    Except RepoError (Order × List OrderProduct) × DB :=
  match loadLineProducts db (plan.lines.map (fun pl => pl.2)) with
  | none => (.error .NotFoundError, db)
  | some current =>
    match current.find? (fun pl => pl.1.stockQuantity < pl.2.quantity) with
    | some pl => (.error (.InsufficientStockError pl.2.productId), db)
    | none =>
      let items := plan.lines.map (fun pl => pl.2)
      let order : Order :=
        { id := db.nextOrderId, totalPriceCents := plan.totalCents, createdAt := now }
      let ops : List OrderProduct := plan.lines.map (fun pl =>
        { productId := pl.2.productId
          orderId := db.nextOrderId
          quantity := pl.2.quantity
          unitPriceCents := pl.1.priceCents })
      (.ok (order, ops),
        { db with
            products := db.products.map (decStock items)
            orders := db.orders ++ [order]
            orderProducts := db.orderProducts ++ ops
            nextOrderId := db.nextOrderId + 1 })

/-- Modelled from the spec: `createOrder` (§4.3) — plan then atomically
commit, all-or-nothing. -/
def createOrder (items : List LineItem) (now : Nat) (db : DB) :
    Except RepoError (Order × List OrderProduct) × DB :=
  match planOrder items db with
  | .error e => (.error e, db)
  | .ok plan => commitOrder plan now db

/-- Restore the stock a cancelled order's rows had reserved (§4.3). -/
def restoreStock (ops : List OrderProduct) (p : Product) : Product :=
  { p with stockQuantity :=
      p.stockQuantity + ((ops.filter (fun op => op.productId = p.id)).map
        (fun op => op.quantity)).sum }

/-- Modelled from the spec: `cancelOrder(orderId)` (§4.3) — loads the Order
(`NotFoundError` if absent, store unchanged) and atomically restores each
referenced Product's stock by the corresponding `OrderProduct.quantity`,
deletes the Order's OrderProduct rows, and deletes the Order row. -/
def cancelOrder (oid : Nat) (db : DB) : Except RepoError Unit × DB :=
  match findOrder db oid with
  | none => (.error .NotFoundError, db)
  | some _ =>
    let ops := db.orderProducts.filter (fun op => op.orderId = oid)
    (.ok (),
      { db with
          products := db.products.map (restoreStock ops)
          orders := db.orders.filter (fun o => ¬ (o.id = oid))
          orderProducts := db.orderProducts.filter (fun op => ¬ (op.orderId = oid)) })

/-- Repository `getById` for Order (behind `GET /orders/:id`). -/
def getOrderById (db : DB) (oid : Nat) : Except RepoError Order :=
  match findOrder db oid with
  | none => .error .NotFoundError
  | some o => .ok o

/-! ## Invariants -/

/-- Invariant I2 (total consistency): every readable Order's `totalPrice`
equals the sum of `unitPrice × quantity` over its OrderProduct rows. -/
def TotalConsistent (db : DB) : Prop :=
  ∀ o ∈ db.orders,
    o.totalPriceCents =
      ((db.orderProducts.filter (fun op => op.orderId = o.id)).map
        (fun op => op.unitPriceCents * op.quantity)).sum

/-- Well-formedness of the store's id bookkeeping: every Order id and every
OrderProduct's orderId is below the order id sequence. -/
def OrderIdsFresh (db : DB) : Prop :=
  (∀ o ∈ db.orders, o.id < db.nextOrderId) ∧
  (∀ op ∈ db.orderProducts, op.orderId < db.nextOrderId)

/-- Invariant I3 (stock non-negativity). -/
def StockNonneg (db : DB) : Prop :=
  ∀ p ∈ db.products, 0 ≤ p.stockQuantity

/-! ## Concrete stores for evaluating the statements -/

/-- The empty store. -/
def emptyDB : DB :=
  { products := [], reviews := [], orders := [], orderProducts := [],
    nextProductId := 1, nextOrderId := 1 }

/-- The spec's example product: `Product(name="Widget", price=9.99,
stockQuantity=5)`, carrying sku `"W-1"` and one review. -/
def sampleProduct : Product :=
  { id := 1, name := "Widget", priceCents := 999, description := none,
    sku := some "W-1", stockQuantity := 5, createdAt := 0 }

/-- A store holding just `sampleProduct` and one review of it. -/
def sampleDB : DB :=
  { products := [sampleProduct],
    reviews := [{ id := 1, rating := 5, comment := none, productId := 1, createdAt := 0 }],
    orders := [], orderProducts := [],
    nextProductId := 2, nextOrderId := 1 }

/-! ## Helper lemmas -/

/-- Rounding half-up at 2 digits is the identity on amounts that are an
exact count of cents. -/
theorem roundHalfUpToCents_int (n : ℤ) :
    roundHalfUpToCents ((n : ℚ) / 100) = n := by
  unfold roundHalfUpToCents
  rw [div_mul_cancel₀ _ (by norm_num : (100 : ℚ) ≠ 0), Int.floor_int_add]
  norm_num

/-- Every order line's `unitPrice × quantity` is an exact count of cents, so
step 5's rounding is the identity and the stored total is the exact sum. -/
theorem orderTotalCents_eq (lines : List (Product × LineItem)) :
    orderTotalCents lines =
      (lines.map (fun pl => pl.1.priceCents * pl.2.quantity)).sum :=
  roundHalfUpToCents_int _

/-- JavaScript's `stockQuantity || 0` coincides with defaulting an absent
value to `0`: for the falsy supplied value `0` the default equals it. -/
theorem jsOrZero_eq_getD (o : Option Int) : jsOrZero o = o.getD 0 := by
  cases o with
  | none => rfl
  | some n =>
    by_cases h : n = 0 <;> simp [jsOrZero, h]

/-- Searching by id commutes with an id-preserving row transformation. -/
theorem find?_map_id_preserving (f : Product → Product)
    (hf : ∀ p, (f p).id = p.id) (l : List Product) (pid : Nat) :
    (l.map f).find? (fun p => p.id = pid) =
      (l.find? (fun p => p.id = pid)).map f := by
  have hpred : ((fun p : Product => decide (p.id = pid)) ∘ f) =
      (fun p : Product => decide (p.id = pid)) := by
    funext p
    simp [Function.comp, hf]
  rw [List.find?_map, hpred]

/-- Loading the line products keeps the line items themselves intact. -/
theorem loadLineProducts_snd (db : DB) :
    ∀ items lines, loadLineProducts db items = some lines →
      lines.map (fun pl => pl.2) = items := by
  intro items
  induction items with
  | nil =>
    intro lines h
    simp only [loadLineProducts, Option.some.injEq] at h
    simp [← h]
  | cons it rest ih =>
    intro lines h
    simp only [loadLineProducts] at h
    cases hf : findProduct db it.productId with
    | none => rw [hf] at h; exact absurd h (by simp)
    | some p =>
      rw [hf] at h
      cases hr : loadLineProducts db rest with
      | none => rw [hr] at h; exact absurd h (by simp)
      | some ls =>
        rw [hr] at h
        simp only [Option.map_some', Option.some.injEq] at h
        subst h
        simp [ih ls hr]

/-- C9: a successful `POST /products` returns the supplied price unchanged
(the exact 2-fractional-digit cent count survives) and a `stockQuantity`
equal to the supplied value, or `0` when the body omitted it. -/
theorem create_returns_supplied_stock_and_price (body : ProductBody)
    (now : Nat) (db db' : DB) (st : Nat) (p : Product)
    (h : postProductHandler body now db = ((st, some p), db')) :
    body.priceCents = some p.priceCents ∧
    p.stockQuantity = body.stockQuantity.getD 0 := by
  obtain ⟨nm?, pr?, d?, s?, sq?⟩ := body
  cases nm? with
  | none => simp [postProductHandler] at h
  | some nm =>
    cases pr? with
    | none => simp [postProductHandler] at h
    | some pr =>
      simp only [postProductHandler] at h
      split at h
      · exact absurd h (by simp)
      · split at h
        · split at h
          · exact absurd h (by simp)
          · rw [Prod.mk.injEq, Prod.mk.injEq, Option.some.injEq] at h
            obtain ⟨⟨hst, hp⟩, hdb⟩ := h
            subst hp
            exact ⟨rfl, jsOrZero_eq_getD sq?⟩
        · rw [Prod.mk.injEq, Prod.mk.injEq, Option.some.injEq] at h
          obtain ⟨⟨hst, hp⟩, hdb⟩ := h
          subst hp
          exact ⟨rfl, jsOrZero_eq_getD sq?⟩

/-- Closed instance of the C9 theorem: creating the sample widget with
stock 5 returns price 999 cents and stock 5; hypotheses discharged at a
concrete input. -/
theorem create_returns_supplied_stock_and_price_witness :
    postProductHandler ⟨some "Widget", some 999, none, none, some 5⟩ 0 emptyDB =
      ((201, some ⟨1, "Widget", 999, none, none, 5, 0⟩),
        ⟨[⟨1, "Widget", 999, none, none, 5, 0⟩], [], [], [], 2, 1⟩) ∧
    (some (999 : Int) = some (999 : Int) ∧ (5 : Int) = (some (5 : Int)).getD 0) := by
  refine ⟨by decide, ?_⟩
  exact create_returns_supplied_stock_and_price
    ⟨some "Widget", some 999, none, none, some 5⟩ 0 emptyDB
    ⟨[⟨1, "Widget", 999, none, none, 5, 0⟩], [], [], [], 2, 1⟩ 201
    ⟨1, "Widget", 999, none, none, 5, 0⟩ (by decide)

/-- C10: `PUT /products/:id` on an existing row changes only the supplied
fields — every field absent from the body keeps its stored value, and the
never-supplied `id` and `createdAt` are untouched (no implicit null-out). -/
theorem update_touches_only_supplied_fields (pid : Nat) (body : ProductBody)
    (db : DB) (p0 : Product) (hfind : findProduct db pid = some p0) :
    ∃ p1, findProduct (putProductHandler pid body db).2 pid = some p1 ∧
      p1.id = p0.id ∧ p1.createdAt = p0.createdAt ∧
      (body.name = none → p1.name = p0.name) ∧
      (body.priceCents = none → p1.priceCents = p0.priceCents) ∧
      (body.description = none → p1.description = p0.description) ∧
      (body.sku = none → p1.sku = p0.sku) ∧
      (body.stockQuantity = none → p1.stockQuantity = p0.stockQuantity) := by
  have hfind' : db.products.find? (fun p => p.id = pid) = some p0 := hfind
  have hid : p0.id = pid := by simpa using List.find?_some hfind'
  have happly : ∀ p : Product, (applyBody body pid p).id = p.id := by
    intro p
    by_cases hp : p.id = pid <;> simp [applyBody, hp]
  refine ⟨applyBody body pid p0, ?_, happly p0, ?_, ?_, ?_, ?_, ?_, ?_⟩
  · simp only [putProductHandler, hfind]
    simp only [findProduct] at hfind ⊢
    rw [find?_map_id_preserving _ happly, hfind]
    rfl
  · by_cases hp : p0.id = pid <;> simp [applyBody, hp]
  · intro h; simp [applyBody, hid, h]
  · intro h; simp [applyBody, hid, h]
  · intro h; simp [applyBody, hid, h]
  · intro h; simp [applyBody, hid, h]
  · intro h; simp [applyBody, hid, h]

/-- Closed instance of the C10 theorem: updating only the price of the
sample widget leaves name, description, sku, stock, id and createdAt as they
were. -/
theorem update_touches_only_supplied_fields_witness :
    ∃ p1, findProduct
        (putProductHandler 1
          { name := none, priceCents := some 1299, description := none,
            sku := none, stockQuantity := none } sampleDB).2 1 = some p1 ∧
      p1.id = sampleProduct.id ∧ p1.createdAt = sampleProduct.createdAt ∧
      ((none : Option String) = none → p1.name = sampleProduct.name) ∧
      ((some (1299 : Int) : Option Int) = none → p1.priceCents = sampleProduct.priceCents) ∧
      ((none : Option (Option String)) = none → p1.description = sampleProduct.description) ∧
      ((none : Option (Option String)) = none → p1.sku = sampleProduct.sku) ∧
      ((none : Option Int) = none → p1.stockQuantity = sampleProduct.stockQuantity) :=
  update_touches_only_supplied_fields 1 _ sampleDB sampleProduct (by decide)

/-- C8 (the code slip): the spec admits a price of exactly 0 (`price ≥ 0`,
and the schema validation below agrees), but the handler's required-field
check `if (!name || !price)` treats the JavaScript number `0` as falsy, so
`POST /products` with a zero price is rejected with 400 and no row is
created. -/
theorem price_zero_valid_but_rejected :
    validateProduct
        { name := "Widget", priceCents := 0, description := none,
          sku := none, stockQuantity := none } = none ∧
    postProductHandler
        { name := some "Widget", priceCents := some 0, description := none,
          sku := none, stockQuantity := none } 0 emptyDB =
      ((400, none), emptyDB) := by
  exact ⟨by decide, by decide⟩

/-- C6: creating a Product whose (otherwise valid) fields carry a sku some
existing Product already holds fails with `ConflictError{field}` and leaves
the store — hence the row-set — unchanged (Invariant I4). -/
theorem duplicate_sku_creation_conflicts (f : ProductFields) (s : String)
    (now : Nat) (db : DB)
    (hvalid : validateProduct f = none) (hsku : f.sku = some s)
    (htaken : ∃ p ∈ db.products, p.sku = some s) :
    repoCreateProduct f now db = (.error (.ConflictError "sku"), db) := by
  have htk : skuTaken db s = true := by
    obtain ⟨p, hp, hps⟩ := htaken
    exact List.any_eq_true.mpr ⟨p, hp, by simp [hps]⟩
  simp only [repoCreateProduct, hvalid, hsku, htk, if_true]

/-- Closed instance of the C6 theorem: a second "W-1" sku against the
sample store is rejected with `ConflictError` and the store is unchanged. -/
theorem duplicate_sku_creation_conflicts_witness :
    (validateProduct ⟨"Widget clone", 500, none, some "W-1", none⟩ = none ∧
      (⟨"Widget clone", 500, none, some "W-1", none⟩ : ProductFields).sku = some "W-1" ∧
      ∃ p ∈ sampleDB.products, p.sku = some "W-1") ∧
    repoCreateProduct ⟨"Widget clone", 500, none, some "W-1", none⟩ 3 sampleDB =
      (.error (.ConflictError "sku"), sampleDB) := by
  refine ⟨⟨by decide, by decide, ⟨sampleProduct, by decide, by decide⟩⟩, ?_⟩
  exact duplicate_sku_creation_conflicts ⟨"Widget clone", 500, none, some "W-1", none⟩
    "W-1" 3 sampleDB (by decide) (by decide) ⟨sampleProduct, by decide, by decide⟩

/-- Evaluation of `deleteProduct` on an absent id. -/
theorem deleteProduct_absent (pid : Nat) (db : DB)
    (hf : findProduct db pid = none) :
    deleteProduct pid db = (.error .NotFoundError, db) := by
  simp only [deleteProduct, hf]

/-- Evaluation of `deleteProduct` on a present id: one transition removes
the parent row and both dependent row-sets. -/
theorem deleteProduct_found (pid : Nat) (db : DB) (p : Product)
    (hf : findProduct db pid = some p) :
    deleteProduct pid db =
      (.ok (),
        { db with
            products := db.products.filter (fun q => ¬ (q.id = pid))
            reviews := db.reviews.filter (fun r => ¬ (r.productId = pid))
            orderProducts :=
              db.orderProducts.filter (fun op => ¬ (op.productId = pid)) }) := by
  simp only [deleteProduct, hf]

/-- After a found-delete, the id no longer resolves. -/
theorem findProduct_after_delete (pid : Nat) (db : DB) (p : Product)
    (hf : findProduct db pid = some p) :
    findProduct (deleteProduct pid db).2 pid = none := by
  rw [deleteProduct_found pid db p hf]
  simp only [findProduct]
  rw [List.find?_eq_none]
  intro x hx
  have := (List.mem_filter.mp hx).2
  simpa using this

/-- C7: deleting an absent Product id fails with `NotFoundError` (store
unchanged), and in particular a second delete of an id just deleted fails
with `NotFoundError` instead of succeeding idempotently. -/
theorem delete_absent_fails_not_found (pid : Nat) (db : DB) :
    (findProduct db pid = none →
      deleteProduct pid db = (.error .NotFoundError, db)) ∧
    ((deleteProduct pid db).1 = .ok () →
      deleteProduct pid (deleteProduct pid db).2 =
        (.error .NotFoundError, (deleteProduct pid db).2)) := by
  constructor
  · intro h
    exact deleteProduct_absent pid db h
  · intro hok
    cases hf : findProduct db pid with
    | none =>
      rw [deleteProduct_absent pid db hf] at hok
      exact absurd hok (by simp)
    | some p =>
      exact deleteProduct_absent pid _ (findProduct_after_delete pid db p hf)

/-- Closed instance of the C7 theorem: after deleting the sample widget,
deleting id 1 again fails with `NotFoundError`. -/
theorem delete_absent_fails_not_found_witness :
    deleteProduct 1 (deleteProduct 1 sampleDB).2 =
      (.error .NotFoundError, (deleteProduct 1 sampleDB).2) :=
  (delete_absent_fails_not_found 1 sampleDB).2 (by rfl)

/-- C3: a successful Product delete removes, in the same single state
transition as the parent row, every Review and OrderProduct row referencing
it — afterwards the product is unreadable and no dependent row referencing
it exists — and a failed delete changes nothing (the one transition is
all-or-nothing, so no partial cascade is ever observable, Invariant I5). -/
theorem cascade_delete_complete_and_atomic (pid : Nat) (db : DB) :
    ((deleteProduct pid db).1 = .ok () →
      findProduct (deleteProduct pid db).2 pid = none ∧
      (∀ r ∈ (deleteProduct pid db).2.reviews, ¬ r.productId = pid) ∧
      (∀ op ∈ (deleteProduct pid db).2.orderProducts, ¬ op.productId = pid)) ∧
    (∀ e, (deleteProduct pid db).1 = .error e → (deleteProduct pid db).2 = db) := by
  constructor
  · intro hok
    cases hf : findProduct db pid with
    | none =>
      rw [deleteProduct_absent pid db hf] at hok
      exact absurd hok (by simp)
    | some p =>
      refine ⟨findProduct_after_delete pid db p hf, ?_, ?_⟩
      · intro r hr
        rw [deleteProduct_found pid db p hf] at hr
        have := (List.mem_filter.mp hr).2
        simpa using this
      · intro op hop
        rw [deleteProduct_found pid db p hf] at hop
        have := (List.mem_filter.mp hop).2
        simpa using this
  · intro e he
    cases hf : findProduct db pid with
    | none => rw [deleteProduct_absent pid db hf]
    | some p =>
      rw [deleteProduct_found pid db p hf] at he
      exact absurd he (by simp)

/-- Closed instance of the C3 theorem: deleting the sample widget leaves no
review or order line referencing id 1 and makes id 1 unreadable. -/
theorem cascade_delete_complete_and_atomic_witness :
    findProduct (deleteProduct 1 sampleDB).2 1 = none ∧
    (∀ r ∈ (deleteProduct 1 sampleDB).2.reviews, ¬ r.productId = 1) ∧
    (∀ op ∈ (deleteProduct 1 sampleDB).2.orderProducts, ¬ op.productId = 1) :=
  (cascade_delete_complete_and_atomic 1 sampleDB).1 (by rfl)

/-- Evaluation of `planOrder` once the step-1 item validation passes. -/
theorem planOrder_eval (items : List LineItem) (db : DB)
    (hne : items ≠ [])
    (hpos : ∀ it ∈ items, 0 < it.quantity)
    (hnd : (items.map (fun it => it.productId)).Nodup) :
    planOrder items db =
      match loadLineProducts db items with
      | none => .error .NotFoundError
      | some lines =>
        match lines.find? (fun pl => pl.1.stockQuantity < pl.2.quantity) with
        | some pl => .error (.InsufficientStockError pl.2.productId)
        | none => .ok { lines := lines, totalCents := orderTotalCents lines } := by
  have h1 : items.isEmpty = false := by
    cases items with
    | nil => exact absurd rfl hne
    | cons a l => rfl
  have h2 : items.any (fun it => it.quantity ≤ 0) = false := by
    rw [List.any_eq_false]
    intro it hit
    simpa using not_le.mpr (hpos it hit)
  simp only [planOrder, h1, h2, Bool.false_eq_true, if_false,
    if_neg (not_not_intro hnd)]

/-- C2: a `createOrder` whose line items pass the step-1 validation and all
resolve to Products, but where some requested quantity exceeds that
Product's stock, fails as a whole with `InsufficientStockError{productId}`
naming an overdrawn product, and the store is returned unchanged: no Order
or OrderProduct row is created and no stockQuantity moves (Invariant I3). -/
theorem insufficient_stock_atomic_reject (items : List LineItem) (now : Nat)
    (db : DB) (lines : List (Product × LineItem))
    (hne : items ≠ [])
    (hpos : ∀ it ∈ items, 0 < it.quantity)
    (hnd : (items.map (fun it => it.productId)).Nodup)
    (hload : loadLineProducts db items = some lines)
    (hex : ∃ pl ∈ lines, pl.1.stockQuantity < pl.2.quantity) :
    ∃ pl ∈ lines, pl.1.stockQuantity < pl.2.quantity ∧
      createOrder items now db =
        (.error (.InsufficientStockError pl.2.productId), db) := by
  have hev := planOrder_eval items db hne hpos hnd
  simp only [hload] at hev
  cases hfind : lines.find? (fun pl => pl.1.stockQuantity < pl.2.quantity) with
  | none =>
    exfalso
    obtain ⟨pl, hmem, hlt⟩ := hex
    have hno := List.find?_eq_none.mp hfind pl hmem
    simp only [decide_eq_true_eq] at hno
    exact hno hlt
  | some pl =>
    rw [hfind] at hev
    refine ⟨pl, List.mem_of_find?_eq_some hfind, ?_, ?_⟩
    · simpa using List.find?_some hfind
    · simp only [createOrder, hev]

/-- Closed instance of the C2 theorem: the spec's example — ordering
quantity 6 against stock 5 fails with `InsufficientStockError` leaving the
sample store untouched. -/
theorem insufficient_stock_atomic_reject_witness :
    ∃ pl ∈ [(sampleProduct, (⟨1, 6⟩ : LineItem))],
      pl.1.stockQuantity < pl.2.quantity ∧
      createOrder [⟨1, 6⟩] 0 sampleDB =
        (.error (.InsufficientStockError pl.2.productId), sampleDB) :=
  insufficient_stock_atomic_reject [⟨1, 6⟩] 0 sampleDB
    [(sampleProduct, ⟨1, 6⟩)] (by decide) (by decide) (by decide) (by rfl)
    ⟨(sampleProduct, ⟨1, 6⟩), by decide, by decide⟩

/-- Destructuring a successful `planOrder`. -/
theorem planOrder_ok_elim (items : List LineItem) (db : DB) (plan : OrderPlan)
    (h : planOrder items db = .ok plan) :
    loadLineProducts db items = some plan.lines ∧
    plan.totalCents = orderTotalCents plan.lines ∧
    (items.map (fun it => it.productId)).Nodup ∧
    (∀ pl ∈ plan.lines, pl.2.quantity ≤ pl.1.stockQuantity) := by
  unfold planOrder at h
  split at h
  next => simp at h
  next =>
    split at h
    next => simp at h
    next =>
      split at h
      next => simp at h
      next hnd =>
        cases hload : loadLineProducts db items with
        | none =>
          simp only [hload] at h
          exact absurd h (by simp)
        | some lines =>
          simp only [hload] at h
          cases hfind : lines.find? (fun pl => pl.1.stockQuantity < pl.2.quantity) with
          | some pl =>
            simp only [hfind] at h
            exact absurd h (by simp)
          | none =>
            simp only [hfind, Except.ok.injEq] at h
            subst h
            refine ⟨rfl, rfl, not_not.mp hnd, ?_⟩
            intro pl hpl
            have hle := List.find?_eq_none.mp hfind pl hpl
            simpa [not_lt] using hle

/-- Destructuring a successful `commitOrder`: the exact Order row, the exact
OrderProduct rows (snapshot prices), and the exact post-store. -/
theorem commitOrder_ok_elim (plan : OrderPlan) (now : Nat) (db : DB)
    (o : Order) (ops : List OrderProduct) (db' : DB)
    (h : commitOrder plan now db = (.ok (o, ops), db')) :
    o = { id := db.nextOrderId, totalPriceCents := plan.totalCents,
          createdAt := now } ∧
    ops = plan.lines.map (fun pl =>
      { productId := pl.2.productId, orderId := db.nextOrderId,
        quantity := pl.2.quantity, unitPriceCents := pl.1.priceCents }) ∧
    db' = { db with
        products := db.products.map (decStock (plan.lines.map (fun pl => pl.2)))
        orders := db.orders ++
          [{ id := db.nextOrderId, totalPriceCents := plan.totalCents,
             createdAt := now }]
        orderProducts := db.orderProducts ++ plan.lines.map (fun pl =>
          { productId := pl.2.productId, orderId := db.nextOrderId,
            quantity := pl.2.quantity, unitPriceCents := pl.1.priceCents })
        nextOrderId := db.nextOrderId + 1 } := by
  unfold commitOrder at h
  cases hload : loadLineProducts db (plan.lines.map (fun pl => pl.2)) with
  | none =>
    simp only [hload] at h
    exact absurd h (by simp)
  | some current =>
    simp only [hload] at h
    cases hfind : current.find? (fun pl => pl.1.stockQuantity < pl.2.quantity) with
    | some pl =>
      simp only [hfind] at h
      exact absurd h (by simp)
    | none =>
      simp only [hfind, Prod.mk.injEq, Except.ok.injEq] at h
      obtain ⟨⟨ho, hops⟩, hdb⟩ := h
      exact ⟨ho.symm, hops.symm, hdb.symm⟩

/-- Destructuring a successful `createOrder` into its two phases. -/
theorem createOrder_ok_elim (items : List LineItem) (now : Nat) (db : DB)
    (o : Order) (ops : List OrderProduct) (db' : DB)
    (h : createOrder items now db = (.ok (o, ops), db')) :
    ∃ plan, planOrder items db = .ok plan ∧
      commitOrder plan now db = (.ok (o, ops), db') := by
  unfold createOrder at h
  cases hp : planOrder items db with
  | error e =>
    rw [hp] at h
    exact absurd h (by simp)
  | ok plan =>
    rw [hp] at h
    exact ⟨plan, rfl, h⟩

/-- C1: a successful `createOrder` stores as the new Order's `totalPrice`
exactly the round-half-up to 2 digits of the sum of `unitPrice × quantity`
over its OrderProduct rows, and Invariant I2 (total consistency for every
readable Order) together with the id-freshness bookkeeping carries from the
pre-store to the post-store — so it holds immediately after `createOrder`
returns and inductively, always. -/
theorem createOrder_total_consistent (items : List LineItem) (now : Nat)
    (db : DB) (o : Order) (ops : List OrderProduct) (db' : DB)
    (hfresh : OrderIdsFresh db) (hI2 : TotalConsistent db)
    (h : createOrder items now db = (.ok (o, ops), db')) :
    o.totalPriceCents =
      roundHalfUpToCents
        (((ops.map (fun op => op.unitPriceCents * op.quantity)).sum : ℤ) /
          (100 : ℚ)) ∧
    o ∈ db'.orders ∧ TotalConsistent db' ∧ OrderIdsFresh db' := by
  obtain ⟨plan, hplan, hcommit⟩ := createOrder_ok_elim items now db o ops db' h
  obtain ⟨hload, htot, hnd, hstock⟩ := planOrder_ok_elim items db plan hplan
  obtain ⟨ho, hops, hdb'⟩ := commitOrder_ok_elim plan now db o ops db' hcommit
  have hoid : o.id = db.nextOrderId := by rw [ho]
  have hsum : (ops.map (fun op => op.unitPriceCents * op.quantity)).sum
      = (plan.lines.map (fun pl => pl.1.priceCents * pl.2.quantity)).sum := by
    rw [hops, List.map_map]
    rfl
  have htotal : o.totalPriceCents
      = (plan.lines.map (fun pl => pl.1.priceCents * pl.2.quantity)).sum := by
    rw [ho]
    show plan.totalCents = _
    rw [htot, orderTotalCents_eq]
  refine ⟨?_, ?_, ?_, ?_, ?_⟩
  · rw [htotal, hsum, roundHalfUpToCents_int]
  · simp only [hdb', List.mem_append, List.mem_singleton]
    right
    exact ho
  · intro o' ho'
    simp only [hdb', List.mem_append, List.mem_singleton] at ho'
    simp only [hdb', List.filter_append]
    rcases ho' with hold | hnew
    · have hlt : o'.id < db.nextOrderId := hfresh.1 o' hold
      have hnil : (plan.lines.map (fun pl =>
          ({ productId := pl.2.productId, orderId := db.nextOrderId,
             quantity := pl.2.quantity,
             unitPriceCents := pl.1.priceCents } : OrderProduct))).filter
            (fun op => op.orderId = o'.id) = [] := by
        rw [List.filter_eq_nil_iff]
        intro op hop
        obtain ⟨pl, hpl, hople⟩ := List.mem_map.mp hop
        subst hople
        simpa using Nat.ne_of_gt hlt
      rw [hnil, List.append_nil]
      exact hI2 o' hold
    · have ho'id : o'.id = db.nextOrderId := by rw [hnew]
      have hoeq : o' = o := by rw [hnew, ho]
      have holdnil : db.orderProducts.filter (fun op => op.orderId = o'.id) = [] := by
        rw [List.filter_eq_nil_iff]
        intro op hop
        have hlt := hfresh.2 op hop
        rw [ho'id]
        simpa using Nat.ne_of_lt hlt
      have hall : (plan.lines.map (fun pl =>
          ({ productId := pl.2.productId, orderId := db.nextOrderId,
             quantity := pl.2.quantity,
             unitPriceCents := pl.1.priceCents } : OrderProduct))).filter
            (fun op => op.orderId = o'.id) = plan.lines.map (fun pl =>
          ({ productId := pl.2.productId, orderId := db.nextOrderId,
             quantity := pl.2.quantity,
             unitPriceCents := pl.1.priceCents } : OrderProduct)) := by
        rw [List.filter_eq_self]
        intro op hop
        obtain ⟨pl, hpl, hople⟩ := List.mem_map.mp hop
        subst hople
        rw [ho'id]
        simp
      rw [holdnil, hall, List.nil_append, hoeq, htotal, ← hops]
      exact hsum.symm
  · intro o' ho'
    simp only [hdb', List.mem_append, List.mem_singleton] at ho'
    simp only [hdb']
    rcases ho' with hold | hnew
    · exact Nat.lt_succ_of_lt (hfresh.1 o' hold)
    · rw [hnew]
      exact Nat.lt_succ_self _
  · intro op hop
    simp only [hdb', List.mem_append] at hop
    simp only [hdb']
    rcases hop with hold | hnew
    · exact Nat.lt_succ_of_lt (hfresh.2 op hold)
    · obtain ⟨pl, hpl, hople⟩ := List.mem_map.mp hnew
      subst hople
      exact Nat.lt_succ_self _

/-- Closed instance of the C1 theorem: the spec's example order — quantity 2
of the 9.99 widget — yields totalPrice 19.98 and a consistent store. -/
theorem createOrder_total_consistent_witness :
    ((⟨1, 1998, 7⟩ : Order).totalPriceCents =
      roundHalfUpToCents
        ((([(⟨1, 1, 2, 999⟩ : OrderProduct)].map
            (fun op => op.unitPriceCents * op.quantity)).sum : ℤ) /
          (100 : ℚ)) ∧
     (⟨1, 1998, 7⟩ : Order) ∈
       (⟨[⟨1, "Widget", 999, none, some "W-1", 3, 0⟩],
         [⟨1, 5, none, 1, 0⟩], [⟨1, 1998, 7⟩], [⟨1, 1, 2, 999⟩], 2, 2⟩ : DB).orders ∧
     TotalConsistent
       ⟨[⟨1, "Widget", 999, none, some "W-1", 3, 0⟩],
         [⟨1, 5, none, 1, 0⟩], [⟨1, 1998, 7⟩], [⟨1, 1, 2, 999⟩], 2, 2⟩ ∧
     OrderIdsFresh
       ⟨[⟨1, "Widget", 999, none, some "W-1", 3, 0⟩],
         [⟨1, 5, none, 1, 0⟩], [⟨1, 1998, 7⟩], [⟨1, 1, 2, 999⟩], 2, 2⟩) :=
  createOrder_total_consistent [⟨1, 2⟩] 7 sampleDB ⟨1, 1998, 7⟩ [⟨1, 1, 2, 999⟩]
    ⟨[⟨1, "Widget", 999, none, some "W-1", 3, 0⟩],
      [⟨1, 5, none, 1, 0⟩], [⟨1, 1998, 7⟩], [⟨1, 1, 2, 999⟩], 2, 2⟩
    (by constructor <;> decide) (by intro o ho; simp [sampleDB] at ho)
    (by simp +decide [createOrder, planOrder, commitOrder, orderTotalCents_eq,
      loadLineProducts, findProduct, decStock, sampleDB, sampleProduct])

/-- Decrementing stock never changes a row's id. -/
theorem decStock_id (items : List LineItem) (q : Product) :
    (decStock items q).id = q.id := by
  unfold decStock
  split <;> rfl

/-- C4: the concurrency hazard of §5, resolved.  Both concurrent
`createOrder` calls for quantity `N` against stock `N` run their read-only
planning phase against the same pre-state — each passes the (stale)
check-then-act stock check — but the atomic commits serialize, and each
commit re-verifies stock against the current store (a conditional
decrement).  Whichever commit runs first succeeds; the other aborts with
`InsufficientStockError{productId}` leaving the store unchanged, so exactly
one call succeeds, never both, and the product's stock ends at exactly 0,
never negative. -/
theorem concurrent_same_product_orders_one_succeeds (db : DB) (pid : Nat)
    (p : Product) (N : Int) (now1 now2 : Nat)
    (hfind : findProduct db pid = some p)
    (hstock : p.stockQuantity = N) (hN : 1 ≤ N) :
    ∃ plan o ops db1,
      planOrder [⟨pid, N⟩] db = .ok plan ∧
      commitOrder plan now1 db = (.ok (o, ops), db1) ∧
      commitOrder plan now2 db1 = (.error (.InsufficientStockError pid), db1) ∧
      findProduct db1 pid = some { p with stockQuantity := 0 } := by
  have hfind0 : db.products.find? (fun q => q.id = pid) = some p := hfind
  have hpid : p.id = pid := by simpa using List.find?_some hfind0
  have hnolt : ¬ (p.stockQuantity < N) := by
    rw [hstock]
    exact lt_irrefl N
  have hload : loadLineProducts db [⟨pid, N⟩] = some [(p, ⟨pid, N⟩)] := by
    simp only [loadLineProducts, hfind]
    rfl
  have hplan : planOrder [⟨pid, N⟩] db =
      .ok ⟨[(p, ⟨pid, N⟩)], orderTotalCents [(p, ⟨pid, N⟩)]⟩ := by
    rw [planOrder_eval]
    · simp only [hload, List.find?_cons, List.find?_nil]
      rw [decide_eq_false hnolt]
    · simp
    · intro it' hit'
      rw [List.mem_singleton] at hit'
      subst hit'
      exact lt_of_lt_of_le Int.zero_lt_one hN
    · simp
  refine ⟨⟨[(p, ⟨pid, N⟩)], orderTotalCents [(p, ⟨pid, N⟩)]⟩,
    ⟨db.nextOrderId, orderTotalCents [(p, ⟨pid, N⟩)], now1⟩,
    [⟨pid, db.nextOrderId, N, p.priceCents⟩],
    ⟨db.products.map (decStock [⟨pid, N⟩]), db.reviews,
      db.orders ++ [⟨db.nextOrderId, orderTotalCents [(p, ⟨pid, N⟩)], now1⟩],
      db.orderProducts ++ [⟨pid, db.nextOrderId, N, p.priceCents⟩],
      db.nextProductId, db.nextOrderId + 1⟩,
    hplan, ?_, ?_, ?_⟩
  · simp only [commitOrder, List.map_cons, List.map_nil, hload,
      List.find?_cons, List.find?_nil]
    rw [decide_eq_false hnolt]
  · have hdec : decStock [⟨pid, N⟩] p = { p with stockQuantity := p.stockQuantity - N } := by
      unfold decStock
      simp [hpid]
    have hfind1 : (db.products.map (decStock [⟨pid, N⟩])).find? (fun q => q.id = pid)
        = some { p with stockQuantity := p.stockQuantity - N } := by
      rw [find?_map_id_preserving _ (decStock_id [⟨pid, N⟩]), hfind0]
      rw [Option.map_some', hdec]
    have hload1 : loadLineProducts
        ⟨db.products.map (decStock [⟨pid, N⟩]), db.reviews,
          db.orders ++ [⟨db.nextOrderId, orderTotalCents [(p, ⟨pid, N⟩)], now1⟩],
          db.orderProducts ++ [⟨pid, db.nextOrderId, N, p.priceCents⟩],
          db.nextProductId, db.nextOrderId + 1⟩ [⟨pid, N⟩]
        = some [({ p with stockQuantity := p.stockQuantity - N }, ⟨pid, N⟩)] := by
      simp only [loadLineProducts, findProduct, hfind1]
      rfl
    have hlt0 : ({ p with stockQuantity := p.stockQuantity - N } : Product).stockQuantity < N := by
      rw [hstock]
      simpa using hN
    simp only [commitOrder, List.map_cons, List.map_nil, hload1,
      List.find?_cons, List.find?_nil]
    rw [decide_eq_true hlt0]
  · simp only [findProduct]
    rw [find?_map_id_preserving _ (decStock_id [⟨pid, N⟩]), hfind0, Option.map_some']
    have hdec : decStock [⟨pid, N⟩] p = { p with stockQuantity := p.stockQuantity - N } := by
      unfold decStock
      simp [hpid]
    rw [hdec, hstock]
    simp

/-- Closed instance of the C4 theorem: two concurrent orders of quantity 5
against the sample widget's stock of 5, both planned from the same
pre-state: the first commit succeeds, the second fails with
`InsufficientStockError`, stock ends at 0. -/
theorem concurrent_same_product_orders_one_succeeds_witness :
    ∃ plan o ops db1,
      planOrder [⟨1, 5⟩] sampleDB = .ok plan ∧
      commitOrder plan 1 sampleDB = (.ok (o, ops), db1) ∧
      commitOrder plan 2 db1 = (.error (.InsufficientStockError 1), db1) ∧
      findProduct db1 1 = some { sampleProduct with stockQuantity := 0 } :=
  concurrent_same_product_orders_one_succeeds sampleDB 1 sampleProduct 5 1 2
    (by decide) (by decide) (by decide)

/-- Filtering an order's rows by product and summing quantities is the same
whether done on the OrderProduct rows or on the underlying line items. -/
theorem filter_sum_map_ops (g : Product × LineItem → OrderProduct)
    (hg1 : ∀ pl, (g pl).productId = pl.2.productId)
    (hg2 : ∀ pl, (g pl).quantity = pl.2.quantity)
    (lines : List (Product × LineItem)) (x : Nat) :
    (((lines.map g).filter (fun op => op.productId = x)).map
        (fun op => op.quantity)).sum
      = (((lines.map (fun pl => pl.2)).filter (fun it => it.productId = x)).map
          (fun it => it.quantity)).sum := by
  rw [List.filter_map, List.map_map, List.filter_map, List.map_map]
  have e1 : ((fun op : OrderProduct => decide (op.productId = x)) ∘ g)
      = (fun pl : Product × LineItem => decide (pl.2.productId = x)) := by
    funext pl
    simp [Function.comp, hg1]
  have e2 : ((fun op : OrderProduct => op.quantity) ∘ g)
      = (fun pl : Product × LineItem => pl.2.quantity) := by
    funext pl
    simp [Function.comp, hg2]
  rw [e1, e2]
  rfl

/-- With no repeated productId, the total quantity filtered for one product
is the quantity of the (unique) matching line item, or 0. -/
theorem sum_filter_of_nodup (its : List LineItem) (x : Nat)
    (hnd : (its.map (fun it => it.productId)).Nodup) :
    ((its.filter (fun it => it.productId = x)).map (fun it => it.quantity)).sum
      = ((its.find? (fun it => it.productId = x)).map
          (fun it => it.quantity)).getD 0 := by
  induction its with
  | nil => rfl
  | cons a l ih =>
    rw [List.map_cons, List.nodup_cons] at hnd
    by_cases hx : a.productId = x
    · rw [List.filter_cons_of_pos (by simpa using hx),
        List.find?_cons_of_pos _ (by simpa using hx)]
      have hnil : l.filter (fun it => it.productId = x) = [] := by
        rw [List.filter_eq_nil_iff]
        intro b hb
        simp only [decide_eq_true_eq]
        intro hbx
        exact hnd.1 (List.mem_map.mpr ⟨b, hb, by rw [hbx, hx]⟩)
      rw [hnil]
      simp
    · rw [List.filter_cons_of_neg (by simpa using hx),
        List.find?_cons_of_neg _ (by simpa using hx)]
      exact ih hnd.2

/-- Restoring a cancelled order's stock undoes the decrement of its
creation, row by row, when no productId repeats within the order. -/
theorem restoreStock_decStock (g : Product × LineItem → OrderProduct)
    (hg1 : ∀ pl, (g pl).productId = pl.2.productId)
    (hg2 : ∀ pl, (g pl).quantity = pl.2.quantity)
    (lines : List (Product × LineItem))
    (hnd : ((lines.map (fun pl => pl.2)).map (fun it => it.productId)).Nodup)
    (p : Product) :
    restoreStock (lines.map g) (decStock (lines.map (fun pl => pl.2)) p) = p := by
  have hsum := (filter_sum_map_ops g hg1 hg2 lines p.id).trans
    (sum_filter_of_nodup (lines.map (fun pl => pl.2)) p.id hnd)
  cases hf : (lines.map (fun pl => pl.2)).find? (fun it => it.productId = p.id) with
  | none =>
    have hdec : decStock (lines.map (fun pl => pl.2)) p = p := by
      unfold decStock
      rw [hf]
    rw [hdec]
    rw [hf] at hsum
    simp only [Option.map_none', Option.getD_none] at hsum
    unfold restoreStock
    rw [hsum, add_zero]
  | some it =>
    have hdec : decStock (lines.map (fun pl => pl.2)) p =
        { p with stockQuantity := p.stockQuantity - it.quantity } := by
      unfold decStock
      rw [hf]
    rw [hf] at hsum
    simp only [Option.map_some', Option.getD_some] at hsum
    rw [hdec]
    unfold restoreStock
    show ({ p with stockQuantity := (p.stockQuantity - it.quantity) +
      (((lines.map g).filter (fun op => op.productId = p.id)).map
        (fun op => op.quantity)).sum } : Product) = p
    rw [hsum, sub_add_cancel]

/-- C5: cancellation inverts creation.  For an Order just produced by
`createOrder`, `cancelOrder(orderId)` succeeds atomically, restores every
referenced Product's stockQuantity to its pre-order value (indeed restores
the product rows exactly), deletes the Order's OrderProduct rows and the
Order row — leaving all three row-sets exactly as before the order — and a
subsequent `getById(orderId)` fails with `NotFoundError`. -/
theorem cancel_inverts_create (items : List LineItem) (now : Nat) (db : DB)
    (o : Order) (ops : List OrderProduct) (db' : DB)
    (hfresh : OrderIdsFresh db)
    (h : createOrder items now db = (.ok (o, ops), db')) :
    ∃ db2, cancelOrder o.id db' = (.ok (), db2) ∧
      db2.products = db.products ∧
      db2.orders = db.orders ∧
      db2.orderProducts = db.orderProducts ∧
      getOrderById db2 o.id = .error .NotFoundError := by
  obtain ⟨plan, hplan, hcommit⟩ := createOrder_ok_elim items now db o ops db' h
  obtain ⟨hload, htot, hnd, hstock⟩ := planOrder_ok_elim items db plan hplan
  obtain ⟨ho, hops, hdb'⟩ := commitOrder_ok_elim plan now db o ops db' hcommit
  have hoid : o.id = db.nextOrderId := by rw [ho]
  have hsnd : plan.lines.map (fun pl => pl.2) = items :=
    loadLineProducts_snd db items plan.lines hload
  have hnd' : ((plan.lines.map (fun pl => pl.2)).map
      (fun it => it.productId)).Nodup := by
    rw [hsnd]
    exact hnd
  have horder : findOrder db' o.id = some o := by
    simp only [hdb', findOrder, List.find?_append]
    have h1 : db.orders.find? (fun o' => o'.id = o.id) = none := by
      rw [List.find?_eq_none]
      intro x hx
      simp only [decide_eq_true_eq]
      exact Nat.ne_of_lt (hoid ▸ hfresh.1 x hx)
    rw [h1, Option.none_or, List.find?_cons_of_pos _ (by simpa using hoid.symm)]
    rw [← ho]
  have hL1 : (db.orderProducts ++ plan.lines.map (fun pl =>
      ({ productId := pl.2.productId, orderId := db.nextOrderId,
         quantity := pl.2.quantity,
         unitPriceCents := pl.1.priceCents } : OrderProduct))).filter
        (fun op => op.orderId = o.id)
      = plan.lines.map (fun pl =>
        ({ productId := pl.2.productId, orderId := db.nextOrderId,
           quantity := pl.2.quantity,
           unitPriceCents := pl.1.priceCents } : OrderProduct)) := by
    rw [List.filter_append]
    have h1 : db.orderProducts.filter (fun op => op.orderId = o.id) = [] := by
      rw [List.filter_eq_nil_iff]
      intro op hop
      simpa using Nat.ne_of_lt (hoid ▸ hfresh.2 op hop)
    have h2 : (plan.lines.map (fun pl =>
        ({ productId := pl.2.productId, orderId := db.nextOrderId,
           quantity := pl.2.quantity,
           unitPriceCents := pl.1.priceCents } : OrderProduct))).filter
          (fun op => op.orderId = o.id)
        = plan.lines.map (fun pl =>
          ({ productId := pl.2.productId, orderId := db.nextOrderId,
             quantity := pl.2.quantity,
             unitPriceCents := pl.1.priceCents } : OrderProduct)) := by
      rw [List.filter_eq_self]
      intro op hop
      obtain ⟨pl, hpl, hople⟩ := List.mem_map.mp hop
      subst hople
      simpa using hoid.symm
    rw [h1, h2, List.nil_append]
  have hL2 : (db.orders ++ [({ id := db.nextOrderId, totalPriceCents := plan.totalCents, createdAt := now } : Order)]).filter (fun o' => ¬ (o'.id = o.id)) = db.orders := by
    rw [List.filter_append]
    have h1 : db.orders.filter (fun o' => ¬ (o'.id = o.id)) = db.orders := by
      rw [List.filter_eq_self]
      intro x hx
      simpa using Nat.ne_of_lt (hoid ▸ hfresh.1 x hx)
    have h2 : ([({ id := db.nextOrderId, totalPriceCents := plan.totalCents, createdAt := now } : Order)]).filter (fun o' => ¬ (o'.id = o.id)) = [] := by
      rw [List.filter_eq_nil_iff]
      intro x hx
      rw [List.mem_singleton] at hx
      subst hx
      simpa using hoid.symm
    rw [h1, h2, List.append_nil]
  have hL3 : (db.orderProducts ++ plan.lines.map (fun pl =>
      ({ productId := pl.2.productId, orderId := db.nextOrderId,
         quantity := pl.2.quantity,
         unitPriceCents := pl.1.priceCents } : OrderProduct))).filter
        (fun op => ¬ (op.orderId = o.id)) = db.orderProducts := by
    rw [List.filter_append]
    have h1 : db.orderProducts.filter (fun op => ¬ (op.orderId = o.id))
        = db.orderProducts := by
      rw [List.filter_eq_self]
      intro op hop
      simpa using Nat.ne_of_lt (hoid ▸ hfresh.2 op hop)
    have h2 : (plan.lines.map (fun pl =>
        ({ productId := pl.2.productId, orderId := db.nextOrderId,
           quantity := pl.2.quantity,
           unitPriceCents := pl.1.priceCents } : OrderProduct))).filter
          (fun op => ¬ (op.orderId = o.id)) = [] := by
      rw [List.filter_eq_nil_iff]
      intro op hop
      obtain ⟨pl, hpl, hople⟩ := List.mem_map.mp hop
      subst hople
      simpa using hoid.symm
    rw [h1, h2, List.append_nil]
  have hL4 : (db.products.map (decStock (plan.lines.map (fun pl => pl.2)))).map
      (restoreStock (plan.lines.map (fun pl =>
        ({ productId := pl.2.productId, orderId := db.nextOrderId,
           quantity := pl.2.quantity,
           unitPriceCents := pl.1.priceCents } : OrderProduct))))
      = db.products := by
    rw [List.map_map]
    exact (List.map_congr_left (fun p _ =>
      restoreStock_decStock _ (fun pl => rfl) (fun pl => rfl)
        plan.lines hnd' p)).trans (List.map_id db.products)
  have hcancel : cancelOrder o.id db' = (.ok (),
      ⟨db.products, db.reviews, db.orders, db.orderProducts,
        db.nextProductId, db.nextOrderId + 1⟩) := by
    simp only [cancelOrder, horder]
    simp only [hdb']
    rw [hL1, hL4, hL2, hL3]
  refine ⟨⟨db.products, db.reviews, db.orders, db.orderProducts,
    db.nextProductId, db.nextOrderId + 1⟩, hcancel, rfl, rfl, rfl, ?_⟩
  have hnone : (⟨db.products, db.reviews, db.orders, db.orderProducts,
      db.nextProductId, db.nextOrderId + 1⟩ : DB).orders.find?
        (fun o' => o'.id = o.id) = none := by
    rw [List.find?_eq_none]
    intro x hx
    simp only [decide_eq_true_eq]
    exact Nat.ne_of_lt (hoid ▸ hfresh.1 x hx)
  simp only [getOrderById, findOrder, hnone]

/-- Closed instance of the C5 theorem: cancelling the order for 2 widgets
restores the sample store's stock of 5 and makes the order unreadable. -/
theorem cancel_inverts_create_witness :
    ∃ db2, cancelOrder 1
        (⟨[⟨1, "Widget", 999, none, some "W-1", 3, 0⟩],
          [⟨1, 5, none, 1, 0⟩], [⟨1, 1998, 7⟩], [⟨1, 1, 2, 999⟩], 2, 2⟩ : DB)
        = (.ok (), db2) ∧
      db2.products = sampleDB.products ∧
      db2.orders = sampleDB.orders ∧
      db2.orderProducts = sampleDB.orderProducts ∧
      getOrderById db2 1 = .error .NotFoundError :=
  cancel_inverts_create [⟨1, 2⟩] 7 sampleDB ⟨1, 1998, 7⟩ [⟨1, 1, 2, 999⟩]
    ⟨[⟨1, "Widget", 999, none, some "W-1", 3, 0⟩],
      [⟨1, 5, none, 1, 0⟩], [⟨1, 1998, 7⟩], [⟨1, 1, 2, 999⟩], 2, 2⟩
    (by constructor <;> decide)
    (by simp +decide [createOrder, planOrder, commitOrder, orderTotalCents_eq,
      loadLineProducts, findProduct, decStock, sampleDB, sampleProduct])

end PrismaPlayground
